import Mathlib

/-!
Verification of the editor.js inline link tool
(`src/components/inline-tools/inline-tool-link.ts`).

Strings are modelled as Lean `String`s / `List Char` (one element per code
point).  JavaScript semantics that the source relies on are made explicit:
the ECMAScript whitespace class (used by `String.prototype.trim` and the
regex class `\s`), the regex word class `\w`, and the fact that `.` in a
regex does not match line terminators.
-/

set_option autoImplicit false

namespace LinkTool

/-- ECMAScript whitespace (the set recognised by `String.prototype.trim`
and by the regex class `\s`): WhiteSpace ∪ LineTerminator. -/
def jsWs (c : Char) : Bool :=
  c = ' ' || c = '\t' || c = '\n' || c = '\r' ||
  c = '\u000B' || c = '\u000C' || c = '\u00A0' || c = '\uFEFF' ||
  c = '\u1680' || ('\u2000' ≤ c && c ≤ '\u200A') ||
  c = '\u2028' || c = '\u2029' || c = '\u202F' || c = '\u205F' || c = '\u3000'

/-- The ECMAScript regex class `\w` = `[A-Za-z0-9_]`. -/
def isWordChar (c : Char) : Bool :=
  c.isAlpha || c.isDigit || c = '_'

/-- ECMAScript line terminators, the characters a regex `.` does not match. -/
def isLineTerminator (c : Char) : Bool :=
  c = '\n' || c = '\r' || c = '\u2028' || c = '\u2029'

/-- Leading-whitespace removal, one half of `String.prototype.trim`. -/
def trimLeft (l : List Char) : List Char :=
  l.dropWhile jsWs

/-- Trailing-whitespace removal, the other half of `String.prototype.trim`. -/
def trimRight (l : List Char) : List Char :=
  (l.reverse.dropWhile jsWs).reverse

/-- `String.prototype.trim`: remove ECMAScript whitespace at both ends. -/
def jsTrim (l : List Char) : List Char :=
  trimRight (trimLeft l)

/-- The test `/^(\w+):(\/\/)?/.test(link)` from `addProtocol`: the string
starts with one or more word characters followed by a colon (the optional
`//` group cannot affect whether the regex matches). -/
def hasProtocol (l : List Char) : Bool :=
  decide (l.takeWhile isWordChar ≠ []) &&
    (match l.dropWhile isWordChar with
     | c :: _ => c = ':'
     | _ => false)

/-- `/^\/[^/\s]/.test(link)`: internal links like `"/general"`. -/
def isInternal : List Char → Bool
  | a :: c :: _ => a = '/' && !(c = '/') && !jsWs c
  | _ => false

/-- `link.length === 1 && link[0] === '/'`: the internal root link `"/"`. -/
def isInternalRoot (l : List Char) : Bool :=
  l = ['/']

/-- `link.substring(0, 1) === '#'`: anchors like `"#results"`. -/
def isAnchor : List Char → Bool
  | a :: _ => a = '#'
  | _ => false

/-- `/^\/\/[^/\s]/.test(link)`: protocol-relative URLs like `"//google.com"`. -/
def isProtocolRelative : List Char → Bool
  | a :: b :: c :: _ => a = '/' && b = '/' && !(c = '/') && !jsWs c
  | _ => false

/-- `/^\[.+\]$/.test(link)`: escaped URLs like `"[content]"`.  The regex `.`
does not match line terminators, so the (non-empty) interior must be free of
them. -/
def isEscapedUrl : List Char → Bool
  | a :: rest =>
      a = '[' && decide (rest.getLast? = some ']') && !rest.dropLast.isEmpty &&
        rest.dropLast.all (fun c => !isLineTerminator c)
  | [] => false

/-- `addProtocol`, on code-point lists: leave strings with a scheme and the
five internal-reference shapes unchanged, else prepend `"http://"`. -/
def addProtocolL (l : List Char) : List Char :=
  if hasProtocol l then l
  else if isInternal l || isInternalRoot l || isAnchor l ||
            isProtocolRelative l || isEscapedUrl l then l
  else "http://".data ++ l

/-- `addProtocol(link)` from the source. -/
def addProtocol (s : String) : String :=
  ⟨addProtocolL s.data⟩

/-- `prepareLink(link)`: `link = link.trim(); link = this.addProtocol(link)`. -/
def prepareLink (s : String) : String :=
  ⟨addProtocolL (jsTrim s.data)⟩

/-- `validateURL(str)`: `!/\s/.test(str)` — reject exactly the strings
containing an ECMAScript whitespace character. -/
def validateURL (s : String) : Bool :=
  s.data.all (fun c => !jsWs c)

/-! ### Reference definition of normalization, written from the spec

The spec describes `normalize` as: after trimming surrounding whitespace, a
string matching `scheme:` or `scheme://` is returned unchanged; otherwise a
string matching one of the five internal-reference shapes — nested path
`/x...` with no second leading slash, root path `/` exactly, leading `#`
anchor, protocol-relative `//x...`, or a bracket token `[...]` spanning the
whole string — is returned unchanged; every other string gets `http://`
prepended. -/

/-- Spec shape: the string carries a scheme, i.e. starts with a non-empty
run of word characters followed by `:` (then anything, e.g. `//`). -/
def specScheme (l : List Char) : Bool :=
  decide (l.takeWhile isWordChar ≠ []) &&
    (match l.dropWhile isWordChar with
     | c :: _ => c = ':'
     | _ => false)

/-- Spec shape (1): nested internal path `/x...`, no second leading slash. -/
def specNestedPath : List Char → Bool
  | a :: c :: _ => a = '/' && !(c = '/')
  | _ => false

/-- Spec shape (2): the root path, exactly `/`. -/
def specRootPath (l : List Char) : Bool :=
  l = ['/']

/-- Spec shape (3): an in-page anchor, leading `#`. -/
def specAnchorShape : List Char → Bool
  | a :: _ => a = '#'
  | _ => false

/-- Spec shape (4): protocol-relative URL `//x...` (no third slash). -/
def specProtocolRelative : List Char → Bool
  | a :: b :: c :: _ => a = '/' && b = '/' && !(c = '/')
  | _ => false

/-- Spec shape (5): a bracket token `[...]` spanning the whole string:
opening bracket, at least one interior character, closing bracket at the
very end. -/
def specBracketToken (l : List Char) : Bool :=
  decide (l.head? = some '[') && decide (l.getLast? = some ']') &&
    decide (3 ≤ l.length)

/-- Scheme-insertion step of the spec's reference `normalize`. -/
def specAddProtocol (l : List Char) : List Char :=
  if specScheme l then l
  else if specNestedPath l || specRootPath l || specAnchorShape l ||
            specProtocolRelative l || specBracketToken l then l
  else "http://".data ++ l

/-- The spec's reference `normalize`: trim surrounding whitespace, then
apply scheme-insertion. -/
def specNormalize (s : String) : String :=
  ⟨specAddProtocol (jsTrim s.data)⟩

/-! ### The document, selection and tool-session state

The document is a flat list of inline nodes; a hyperlink annotation is an
`anchor` node carrying its `href` and `title` attributes (`Option String`:
`none` = attribute absent) and its visible text.  A selection is a node
index plus start/end offsets inside that node's text.  External side effects
(document commands, notifier, toolbars, selection bookkeeping) are recorded
in an ordered effect trace. -/

/-- An inline node of the document: plain text, or an `<a>` annotation with
optional `href`/`title` attributes and its visible text. -/
inductive Inline where
  | text (s : String)
  | anchor (href title : Option String) (body : String)
deriving DecidableEq, Repr

/-- Visible text of an inline node. -/
def Inline.visibleText : Inline → String
  | .text s => s
  | .anchor _ _ s => s

/-- Visible text of a document, as the concatenated code points. -/
def docText (doc : List Inline) : List Char :=
  (doc.map (fun n => n.visibleText.data)).flatten

/-- A concrete selection: the index of the node holding it and the start and
end character offsets inside that node's text. -/
structure Sel where
  idx : Nat
  startOff : Nat
  endOff : Nat
deriving DecidableEq, Repr

/-- Observable effects, in execution order.  Selection bookkeeping carries
the snapshot it operates with, document commands carry their argument. -/
inductive Effect where
  | saveSel (s : Option Sel)
  | restoreSel (s : Option Sel)
  | setFakeBg
  | removeFakeBg
  | clearSaved
  | expandTo (i : Nat)
  | collapseToEnd
  | execCreateLink (href : String)
  | execUnlink
  | setAnchorTitle (t : String)
  | notifierShow (message style : String)
  | logWarn (link : String)
  | toolbarClose
  | inlineToolbarClose
deriving DecidableEq, Repr

/-- Whole state visible to the tool: the document plus the document-wide
active selection and fake-background flag, the tool's own `SelectionUtils`
snapshot (`savedSel`), and the tool's UI state (`inputOpened`, the two input
values, the button CSS flags). -/
structure ToolState where
  doc : List Inline
  activeSel : Option Sel
  fakeBackground : Bool
  savedSel : Option Sel
  inputOpened : Bool
  linkValue : String
  titleValue : String
  buttonUnlink : Bool
  buttonActive : Bool
deriving DecidableEq, Repr

/-! #### SelectionUtils operations

Modelled from the spec: the `SelectionUtils` class lives in
`src/components/selection.ts`, which is not part of the sources under
review; its contract is taken from the spec's SelectionTracker section —
`save` captures the current selection (silent no-op when there is none),
`restore` re-applies the last snapshot, `setFakeBackground` /
`removeFakeBackground` toggle the document-wide flag, `clearSaved` discards
the snapshot, `findParentTag` finds the enclosing element of the current
selection, `expandToTag` re-selects an element's full contents, and
`collapseToEnd` collapses the selection to its end. -/

/-- Modelled from the spec: `SelectionUtils.save` on the tool's own
instance — capture the current active selection; no-op without one. -/
def selSave (st : ToolState) : ToolState × List Effect :=
  (match st.activeSel with
   | some s => { st with savedSel := some s }
   | none => st,
   [Effect.saveSel st.activeSel])

/-- Modelled from the spec: `SelectionUtils.restore` on the tool's own
instance — re-apply the saved snapshot; no-op without one. -/
def selRestore (st : ToolState) : ToolState × List Effect :=
  (match st.savedSel with
   | some s => { st with activeSel := some s }
   | none => st,
   [Effect.restoreSel st.savedSel])

/-- Modelled from the spec: `SelectionUtils.setFakeBackground`. -/
def selSetFakeBg (st : ToolState) : ToolState × List Effect :=
  ({ st with fakeBackground := true }, [Effect.setFakeBg])

/-- Modelled from the spec: `SelectionUtils.removeFakeBackground`. -/
def selRemoveFakeBg (st : ToolState) : ToolState × List Effect :=
  ({ st with fakeBackground := false }, [Effect.removeFakeBg])

/-- Modelled from the spec: `SelectionUtils.clearSaved`. -/
def selClearSaved (st : ToolState) : ToolState × List Effect :=
  ({ st with savedSel := none }, [Effect.clearSaved])

/-- Modelled from the spec: `SelectionUtils.collapseToEnd`. -/
def selCollapseToEnd (st : ToolState) : ToolState × List Effect :=
  (match st.activeSel with
   | some sel => { st with activeSel := some ⟨sel.idx, sel.endOff, sel.endOff⟩ }
   | none => st,
   [Effect.collapseToEnd])

/-- Modelled from the spec: `SelectionUtils.findParentTag('A')` — the node
enclosing the current selection, when it is an anchor: its index and its
`href`/`title` attributes and body. -/
def findParentAnchor (st : ToolState) :
    Option (Nat × Option String × Option String × String) :=
  match st.activeSel with
  | none => none
  | some sel =>
      match st.doc.get? sel.idx with
      | some (.anchor h t body) => some (sel.idx, h, t, body)
      | _ => none

/-- Modelled from the spec: `SelectionUtils.expandToTag` — re-select the
full contents of node `i`. -/
def selExpandTo (i : Nat) (st : ToolState) : ToolState × List Effect :=
  (match st.doc.get? i with
   | some n => { st with activeSel := some ⟨i, 0, n.visibleText.length⟩ }
   | none => st,
   [Effect.expandTo i])

/-! #### Native document commands

Modelled from the spec: `document.execCommand('createLink'/'unlink')` is a
browser primitive; the spec's LinkMutator section describes it — wrapping
the selected text in a single annotation carrying the given `href`
(replacing the `href` when the selection is an existing annotation), and
unwrapping the enclosing annotation leaving its text in place. -/

/-- State change of `document.execCommand('createLink', false, link)` (see
`execCreateLink`).  On a selection inside an anchor node the anchor's `href`
is replaced; on a non-collapsed selection inside a text node the selected
range is wrapped in a fresh anchor (splitting off the unselected text) and
the selection moves onto the new anchor; otherwise a no-op. -/
def execCreateLinkSt (link : String) (st : ToolState) : ToolState :=
  match st.activeSel with
  | none => st
  | some sel =>
      match st.doc.get? sel.idx with
      | some (.anchor _ t body) =>
          { st with doc := st.doc.set sel.idx (.anchor (some link) t body) }
      | some (.text s) =>
          if sel.startOff < sel.endOff && sel.endOff ≤ s.data.length then
            let pre : String := ⟨s.data.take sel.startOff⟩
            let mid : String := ⟨(s.data.take sel.endOff).drop sel.startOff⟩
            let post : String := ⟨s.data.drop sel.endOff⟩
            let newNodes :=
              (if pre.data.isEmpty then [] else [Inline.text pre]) ++
              [Inline.anchor (some link) none mid] ++
              (if post.data.isEmpty then [] else [Inline.text post])
            let ai := sel.idx + (if pre.data.isEmpty then 0 else 1)
            { st with
                doc := st.doc.take sel.idx ++ newNodes ++ st.doc.drop (sel.idx + 1),
                activeSel := some ⟨ai, 0, mid.data.length⟩ }
          else st
      | none => st

/-- Modelled from the spec: `document.execCommand('createLink', false, link)`. -/
def execCreateLink (link : String) (st : ToolState) : ToolState × List Effect :=
  (execCreateLinkSt link st, [Effect.execCreateLink link])

/-- State change of `document.execCommand('unlink')` (see `execUnlink`):
unwrap the anchor enclosing the selection, leaving its visible text; no-op
otherwise. -/
def execUnlinkSt (st : ToolState) : ToolState :=
  match st.activeSel with
  | some sel =>
      match st.doc.get? sel.idx with
      | some (.anchor _ _ body) =>
          { st with doc := st.doc.set sel.idx (.text body) }
      | _ => st
  | none => st

/-- Modelled from the spec: `document.execCommand('unlink')`. -/
def execUnlink (st : ToolState) : ToolState × List Effect :=
  (execUnlinkSt st, [Effect.execUnlink])

/-- State change of writing the `title` attribute (see
`setParentAnchorTitle`). -/
def setParentAnchorTitleSt (title : String) (st : ToolState) : ToolState :=
  match st.activeSel with
  | some sel =>
      match st.doc.get? sel.idx with
      | some (.anchor h _ body) =>
          { st with doc := st.doc.set sel.idx (.anchor h (some title) body) }
      | _ => st
  | none => st

/-- `this.selection.findParentTag('A').title = title` at the end of
`insertLink`: write the `title` attribute of the anchor now enclosing the
selection.  (In the browser this line throws when no anchor encloses the
selection; every call site reaches it with the selection on an anchor, and
the model leaves the state unchanged in the unreachable case.) -/
def setParentAnchorTitle (title : String) (st : ToolState) : ToolState × List Effect :=
  (setParentAnchorTitleSt title st, [Effect.setAnchorTitle title])

/-! ### Tool controller, translated from `inline-tool-link.ts` -/

/-- The pre-fill expression of `checkState`:
`attr !== 'null' ? attr : ''` assigned to `input.value`.  A present
attribute different from the literal string `"null"` is copied verbatim
(the empty string included); the literal `"null"` yields `''`; an absent
attribute (`getAttribute` returns `null`) passes the ternary and is coerced
to the empty string by the `[LegacyNullToEmptyString]` rule of
`HTMLInputElement.value`. -/
def attrToValue : Option String → String
  | some v => if v = "null" then "" else v
  | none => ""

/-- `openActions(needFocus)`: show the inputs (focus has no semantic
effect); the input is now opened. -/
def openActions (_needFocus : Bool) (st : ToolState) : ToolState :=
  { st with inputOpened := true }

/-- `closeActions(clearSavedSelection)`, translated line by line: when the
fake background is active, a fresh local `SelectionUtils` snapshots the
currently active selection, the tool's saved selection is restored and the
fake background removed, then the local snapshot is re-applied; afterwards
the inputs are hidden and emptied, the saved selection is cleared when
requested, and the input is marked closed. -/
def closeActions (clearSavedSelection : Bool) (st : ToolState) : ToolState × List Effect :=
  let r1 :=
    if st.fakeBackground then
      -- const currentSelection = new SelectionUtils(); currentSelection.save();
      let cur := st.activeSel
      -- this.selection.restore();
      let a := selRestore st
      -- this.selection.removeFakeBackground();
      let b := selRemoveFakeBg a.1
      -- currentSelection.restore();
      let stc :=
        match cur with
        | some s => { b.1 with activeSel := some s }
        | none => b.1
      (stc, [Effect.saveSel cur] ++ a.2 ++ b.2 ++ [Effect.restoreSel cur])
    else (st, [])
  let st1 := { r1.1 with linkValue := "", titleValue := "" }
  let r2 := if clearSavedSelection then selClearSaved st1 else (st1, [])
  ({ r2.1 with inputOpened := false }, r1.2 ++ r2.2)

/-- `toggleActions()`: open the input when closed, close it (keeping the
saved selection) when open. -/
def toggleActions (st : ToolState) : ToolState × List Effect :=
  if !st.inputOpened then (openActions true st, [])
  else closeActions false st

/-- `unlink()`: `document.execCommand('unlink')`. -/
def unlink (st : ToolState) : ToolState × List Effect :=
  execUnlink st

/-- `checkState(selection)`: when an anchor encloses the current selection,
activate the button, open the inputs, pre-fill them from the anchor's
`href`/`title` attributes, and re-save the selection; otherwise deactivate
the button.  Returns whether an anchor was found. -/
def checkState (st : ToolState) : ToolState × List Effect × Bool :=
  match findParentAnchor st with
  | some (_, h, t, _) =>
      let st1 := { st with buttonUnlink := true, buttonActive := true }
      let st2 := openActions false st1
      let st3 := { st2 with linkValue := attrToValue h, titleValue := attrToValue t }
      let r := selSave st3
      (r.1, r.2, true)
  | none =>
      ({ st with buttonUnlink := false, buttonActive := false }, [], false)

/-- `clear()`: called by the host when the inline toolbar closes —
`this.closeActions()` with the default `clearSavedSelection = true`. -/
def clear (st : ToolState) : ToolState × List Effect :=
  closeActions true st

/-- `surround(range)`: `hasRange` stands for `range` being non-null (a
second click on the icon passes `null`).  With a range: save the selection
behind a fake background when the input is closed (restore and drop the
fake background when it is already open); if an anchor encloses the
selection, expand to it, unlink it, close the input, re-check the state and
close the toolbar.  Otherwise toggle the input. -/
def surround (hasRange : Bool) (st : ToolState) : ToolState × List Effect :=
  if hasRange then
    let r0 :=
      if !st.inputOpened then
        let a := selSetFakeBg st
        let b := selSave a.1
        (b.1, a.2 ++ b.2)
      else
        let a := selRestore st
        let b := selRemoveFakeBg a.1
        (b.1, a.2 ++ b.2)
    match findParentAnchor r0.1 with
    | some (i, _, _, _) =>
        let r1 := selExpandTo i r0.1
        let r2 := unlink r1.1
        let r3 := closeActions true r2.1
        let r4 := checkState r3.1
        (r4.1, r0.2 ++ r1.2 ++ r2.2 ++ r3.2 ++ r4.2.1 ++ [Effect.toolbarClose])
    | none =>
        let r := toggleActions r0.1
        (r.1, r0.2 ++ r.2)
  else toggleActions st

/-- `insertLink(link, title)`: when an anchor already encloses the
selection, expand the selection to its full extent first, then run
`createLink` and write the `title` attribute on the resulting anchor. -/
def insertLink (link title : String) (st : ToolState) : ToolState × List Effect :=
  let r0 :=
    match findParentAnchor st with
    | some (i, _, _, _) => selExpandTo i st
    | none => (st, [])
  let r1 := execCreateLink link r0.1
  let r2 := setParentAnchorTitle title r1.1
  (r2.1, r0.2 ++ r1.2 ++ r2.2)

/-- `enterPressed(event)`: empty (after trim) link text restores the
selection and unlinks; text failing `validateURL` only notifies and logs;
valid text is normalized and inserted at the restored selection, the
selection collapses to the annotation's end and the inline toolbar closes.
Modelled from the spec: `this.inlineToolbar.close()` makes the host close
the inline toolbar, which invokes the tool's `clear()`; the host inline
toolbar lives outside the sources under review.  (`event.preventDefault`
and propagation stoppers have no effect on the modelled state.) -/
def enterPressed (st : ToolState) : ToolState × List Effect :=
  let link := st.linkValue
  let title := st.titleValue
  if (jsTrim link.data).isEmpty then
    let a := selRestore st
    let b := unlink a.1
    let c := closeActions true b.1
    (c.1, a.2 ++ b.2 ++ c.2)
  else if !validateURL link then
    (st, [Effect.notifierShow "Pasted link is not valid." "error",
          Effect.logWarn link])
  else
    let nlink := prepareLink link
    let a := selRestore st
    let b := selRemoveFakeBg a.1
    let c := insertLink nlink title b.1
    let d := selCollapseToEnd c.1
    let e := clear d.1
    (e.1, a.2 ++ b.2 ++ c.2 ++ d.2 ++ [Effect.inlineToolbarClose] ++ e.2)

/-- Does an effect mutate the document? -/
def Effect.mutatesDoc : Effect → Bool
  | .execCreateLink _ => true
  | .execUnlink => true
  | .setAnchorTitle _ => true
  | _ => false

/-- Is an effect a notifier call? -/
def Effect.isNotifier : Effect → Bool
  | .notifierShow _ _ => true
  | _ => false

/-! ### Sample states used by witnesses and counterexamples -/

/-- A closed session whose (non-empty) selection lies strictly inside an
existing annotation `<a href="http://x.com">text</a>`. -/
def sampleClosedOnAnchor : ToolState :=
  { doc := [Inline.anchor (some "http://x.com") none "text"],
    activeSel := some ⟨0, 1, 2⟩,
    fakeBackground := false,
    savedSel := none,
    inputOpened := false,
    linkValue := "",
    titleValue := "",
    buttonUnlink := false,
    buttonActive := false }

/-- An open editing session over the same annotation, selection saved and
fake background active. -/
def sampleOpenOnAnchor : ToolState :=
  { doc := [Inline.anchor (some "http://x.com") none "text"],
    activeSel := some ⟨0, 1, 2⟩,
    fakeBackground := true,
    savedSel := some ⟨0, 1, 2⟩,
    inputOpened := true,
    linkValue := "",
    titleValue := "",
    buttonUnlink := true,
    buttonActive := true }

/-- An open creation session over the word `world` of a plain text node. -/
def sampleOpenOnText : ToolState :=
  { doc := [Inline.text "hello world"],
    activeSel := some ⟨0, 6, 11⟩,
    fakeBackground := true,
    savedSel := some ⟨0, 6, 11⟩,
    inputOpened := true,
    linkValue := "",
    titleValue := "",
    buttonUnlink := false,
    buttonActive := false }

/-! ### Helper lemmas about trimming -/

theorem dropWhile_dropWhile {α : Type} (p : α → Bool) (l : List α) :
    (l.dropWhile p).dropWhile p = l.dropWhile p := by
  induction l with
  | nil => rfl
  | cons a l ih =>
      by_cases h : p a = true
      · rw [List.dropWhile_cons_of_pos h]
        exact ih
      · rw [List.dropWhile_cons_of_neg h, List.dropWhile_cons_of_neg h]

theorem dropWhile_fixed_head {α : Type} {p : α → Bool} {a : α} {l : List α}
    (h : (a :: l).dropWhile p = a :: l) : p a = false := by
  by_cases hp : p a = true
  · rw [List.dropWhile_cons_of_pos hp] at h
    have hle : (l.dropWhile p).length ≤ l.length :=
      (List.dropWhile_suffix p).sublist.length_le
    rw [h] at hle
    simp at hle
  · simpa using hp

theorem trimLeft_trimLeft (l : List Char) : trimLeft (trimLeft l) = trimLeft l :=
  dropWhile_dropWhile _ _

theorem trimRight_trimRight (l : List Char) : trimRight (trimRight l) = trimRight l := by
  unfold trimRight
  rw [List.reverse_reverse, dropWhile_dropWhile]

theorem trimRight_prefix_self (l : List Char) : trimRight l <+: l := by
  have h := List.reverse_prefix.mpr (List.dropWhile_suffix (l := l.reverse) jsWs)
  rwa [List.reverse_reverse] at h

theorem trimLeft_cons_of_not_ws (a : Char) (l : List Char) (ha : jsWs a = false) :
    trimLeft (a :: l) = a :: l :=
  List.dropWhile_cons_of_neg (by simp [ha])

theorem trimLeft_trimRight_of_fixed (l : List Char) (h : trimLeft l = l) :
    trimLeft (trimRight l) = trimRight l := by
  cases l with
  | nil => rfl
  | cons a l' =>
      have ha : jsWs a = false := dropWhile_fixed_head h
      rcases trimRight_prefix_self (a :: l') with ⟨t, ht⟩
      cases htr : trimRight (a :: l') with
      | nil => rfl
      | cons b r =>
          rw [htr] at ht
          have hb : b = a := by
            have hh := congrArg List.head? ht
            simpa using hh
          subst hb
          exact trimLeft_cons_of_not_ws _ _ ha

theorem jsTrim_idem (l : List Char) : jsTrim (jsTrim l) = jsTrim l := by
  unfold jsTrim
  rw [trimLeft_trimRight_of_fixed (trimLeft l) (trimLeft_trimLeft l), trimRight_trimRight]

theorem jsTrim_trimRight_fixed (l : List Char) : trimRight (jsTrim l) = jsTrim l := by
  unfold jsTrim
  rw [trimRight_trimRight]

theorem hasProtocol_http (l : List Char) : hasProtocol ("http://".data ++ l) = true := rfl

theorem trimRight_append_of_fixed (x t : List Char) (h : trimRight t = t) (hne : t ≠ []) :
    trimRight (x ++ t) = x ++ t := by
  have hrev : t.reverse.dropWhile jsWs = t.reverse := by
    have hr := congrArg List.reverse h
    unfold trimRight at hr
    rwa [List.reverse_reverse] at hr
  have hne' : t.reverse ≠ [] := by simpa using hne
  obtain ⟨c, tr, hct⟩ := List.exists_cons_of_ne_nil hne'
  rw [hct] at hrev
  have hc : jsWs c = false := dropWhile_fixed_head hrev
  unfold trimRight
  rw [List.reverse_append, hct, List.cons_append,
      List.dropWhile_cons_of_neg (by simp [hc])]
  have he : c :: (tr ++ x.reverse) = (x ++ t).reverse := by
    rw [List.reverse_append, hct]
    rfl
  rw [he, List.reverse_reverse]

theorem jsTrim_http_append (t : List Char) (htr : trimRight t = t) (hne : t ≠ []) :
    jsTrim ("http://".data ++ t) = "http://".data ++ t := by
  show trimRight (trimLeft ("http://".data ++ t)) = "http://".data ++ t
  have hL : trimLeft ("http://".data ++ t) = "http://".data ++ t := rfl
  rw [hL]
  exact trimRight_append_of_fixed _ _ htr hne

theorem addProtocolL_jsTrim_fix (l : List Char) :
    addProtocolL (jsTrim (addProtocolL (jsTrim l))) = addProtocolL (jsTrim l) := by
  have ht : jsTrim (jsTrim l) = jsTrim l := jsTrim_idem l
  have htr : trimRight (jsTrim l) = jsTrim l := jsTrim_trimRight_fixed l
  by_cases h1 : hasProtocol (jsTrim l) = true
  · have e : addProtocolL (jsTrim l) = jsTrim l := by simp [addProtocolL, h1]
    rw [e, ht, e]
  · by_cases h2 : (isInternal (jsTrim l) || isInternalRoot (jsTrim l) || isAnchor (jsTrim l) ||
        isProtocolRelative (jsTrim l) || isEscapedUrl (jsTrim l)) = true
    · have e : addProtocolL (jsTrim l) = jsTrim l := by simp [addProtocolL, h1, h2]
      rw [e, ht, e]
    · have e : addProtocolL (jsTrim l) = "http://".data ++ jsTrim l := by
        simp [addProtocolL, h1, h2]
      rw [e]
      have htrim : jsTrim ("http://".data ++ jsTrim l) = "http://".data ++ jsTrim l := by
        by_cases hnil : jsTrim l = []
        · rw [hnil]
          decide
        · exact jsTrim_http_append _ htr hnil
      rw [htrim]
      have hp : hasProtocol ("http://".data ++ jsTrim l) = true := hasProtocol_http _
      unfold addProtocolL
      rw [if_pos hp]

/-! ### Helper lemmas relating the code shapes to the spec shapes -/

theorem lineTerm_is_ws {c : Char} (h : isLineTerminator c = true) : jsWs c = true := by
  unfold isLineTerminator at h
  have h2 : ((c = '\n' ∨ c = '\r') ∨ c = '\u2028') ∨ c = '\u2029' := by simpa using h
  rcases h2 with ((h | h) | h) | h <;> subst h <;> decide

theorem not_lineTerm_of_not_ws {c : Char} (h : jsWs c = false) :
    isLineTerminator c = false := by
  cases hlt : isLineTerminator c
  · rfl
  · rw [lineTerm_is_ws hlt] at h
    cases h

theorem isInternal_eq_spec (l : List Char) (h : ∀ c ∈ l, jsWs c = false) :
    isInternal l = specNestedPath l := by
  rcases l with _ | ⟨a, _ | ⟨c, r⟩⟩
  · rfl
  · rfl
  · have hc : jsWs c = false := h c (by simp)
    simp [isInternal, specNestedPath, hc]

theorem isProtocolRelative_eq_spec (l : List Char) (h : ∀ c ∈ l, jsWs c = false) :
    isProtocolRelative l = specProtocolRelative l := by
  rcases l with _ | ⟨a, _ | ⟨b, _ | ⟨c, r⟩⟩⟩
  · rfl
  · rfl
  · rfl
  · have hc : jsWs c = false := h c (by simp)
    simp [isProtocolRelative, specProtocolRelative, hc]

theorem isEscapedUrl_eq_spec (l : List Char) (h : ∀ c ∈ l, jsWs c = false) :
    isEscapedUrl l = specBracketToken l := by
  rcases l with _ | ⟨a, _ | ⟨b, _ | ⟨c, r⟩⟩⟩
  · rfl
  · simp [isEscapedUrl, specBracketToken]
  · simp [isEscapedUrl, specBracketToken]
  · have hall : ((b :: c :: r).dropLast.all fun x => !isLineTerminator x) = true := by
      rw [List.all_eq_true]
      intro x hx
      have hxl : x ∈ a :: b :: c :: r :=
        List.mem_cons_of_mem a ((List.dropLast_sublist (b :: c :: r)).subset hx)
      simp [not_lineTerm_of_not_ws (h x hxl)]
    simp [isEscapedUrl, specBracketToken, hall, List.getLast?_cons_cons]
    intro _ _
    simpa using hall

theorem mem_jsTrim {c : Char} {l : List Char} (h : c ∈ jsTrim l) : c ∈ l :=
  (List.dropWhile_suffix jsWs).subset ((trimRight_prefix_self (trimLeft l)).subset h)

theorem addProtocolL_eq_spec (l : List Char) (h : ∀ c ∈ l, jsWs c = false) :
    addProtocolL l = specAddProtocol l := by
  unfold addProtocolL specAddProtocol
  rw [show specScheme l = hasProtocol l from rfl,
      ← isInternal_eq_spec l h,
      show specRootPath l = isInternalRoot l from rfl,
      show specAnchorShape l = isAnchor l from rfl,
      ← isProtocolRelative_eq_spec l h,
      ← isEscapedUrl_eq_spec l h]

/-! ### Claim C3 -/

/-- C3: normalization is idempotent — for every string `s`,
`prepareLink (prepareLink s) = prepareLink s`, where `prepareLink` is trim
followed by `addProtocol`. -/
theorem prepareLink_idempotent (s : String) :
    prepareLink (prepareLink s) = prepareLink s :=
  congrArg String.mk (addProtocolL_jsTrim_fix s.data)

/-! ### Claim C2 -/

/-- C2 counterexample: `prepareLink` does not equal the spec's reference
definition on every string.  On `"/ a"` the code's nested-path regex
`/^\/[^/\s]/` fails (the character after the slash is whitespace), so the
code prepends `http://`, while the spec's shape "`/x...` with no second
leading slash" matches and leaves the string unchanged. -/
theorem normalize_spec_divergence :
    prepareLink "/ a" = "http:/// a" ∧ specNormalize "/ a" = "/ a" ∧
      prepareLink "/ a" ≠ specNormalize "/ a" := by
  decide

/-- C2 (amended): the code's `prepareLink` agrees with the spec's reference
definition on every string free of whitespace characters — on such strings
the code's extra requirements (the character after the leading slash(es) is
not whitespace; the bracket interior has no line terminator) hold
automatically — and all the listed scenario examples hold as stated. -/
theorem normalize_matches_spec_on_whitespace_free :
    (∀ s : String, (∀ c ∈ s.data, jsWs c = false) →
        prepareLink s = specNormalize s) ∧
    prepareLink "vc.ru" = "http://vc.ru" ∧
    prepareLink "/general" = "/general" ∧
    prepareLink "/" = "/" ∧
    prepareLink "#results" = "#results" ∧
    prepareLink "//cdn.example.com/x" = "//cdn.example.com/x" ∧
    prepareLink "[token]" = "[token]" := by
  refine ⟨fun s h => ?_, by decide, by decide, by decide, by decide, by decide, by decide⟩
  exact congrArg String.mk
    (addProtocolL_eq_spec (jsTrim s.data) (fun c hc => h c (mem_jsTrim hc)))

/-- C2 witness: the agreement applied at the concrete input `"vc.ru"`. -/
theorem normalize_matches_spec_witness :
    prepareLink "vc.ru" = specNormalize "vc.ru" :=
  normalize_matches_spec_on_whitespace_free.1 "vc.ru" (by decide)

/-! ### Helper lemmas about the stateful operations -/

theorem closeActions_doc (b : Bool) (st : ToolState) :
    (closeActions b st).1.doc = st.doc := by
  by_cases hbg : st.fakeBackground = true <;> by_cases hb : b = true <;>
    cases ha : st.activeSel <;> cases hs : st.savedSel <;>
      simp [closeActions, selRestore, selRemoveFakeBg, selClearSaved, hbg, hb, ha, hs]

theorem closeActions_inputOpened (b : Bool) (st : ToolState) :
    (closeActions b st).1.inputOpened = false := by
  by_cases hbg : st.fakeBackground = true <;> by_cases hb : b = true <;>
    cases ha : st.activeSel <;> cases hs : st.savedSel <;>
      simp [closeActions, selRestore, selRemoveFakeBg, selClearSaved, hbg, hb, ha, hs]

theorem closeActions_linkValue (b : Bool) (st : ToolState) :
    (closeActions b st).1.linkValue = "" := by
  by_cases hbg : st.fakeBackground = true <;> by_cases hb : b = true <;>
    cases ha : st.activeSel <;> cases hs : st.savedSel <;>
      simp [closeActions, selRestore, selRemoveFakeBg, selClearSaved, hbg, hb, ha, hs]

theorem closeActions_titleValue (b : Bool) (st : ToolState) :
    (closeActions b st).1.titleValue = "" := by
  by_cases hbg : st.fakeBackground = true <;> by_cases hb : b = true <;>
    cases ha : st.activeSel <;> cases hs : st.savedSel <;>
      simp [closeActions, selRestore, selRemoveFakeBg, selClearSaved, hbg, hb, ha, hs]

theorem closeActions_fakeBackground (b : Bool) (st : ToolState)
    (h : st.fakeBackground = true ∨ st.fakeBackground = false) :
    (closeActions b st).1.fakeBackground = false := by
  rcases h with hbg | hbg <;> by_cases hb : b = true <;>
    cases ha : st.activeSel <;> cases hs : st.savedSel <;>
      simp [closeActions, selRestore, selRemoveFakeBg, selClearSaved, hbg, hb, ha, hs]

theorem closeActions_trace (b : Bool) (st : ToolState) :
    (closeActions b st).2 =
      (if st.fakeBackground then
        [Effect.saveSel st.activeSel, Effect.restoreSel st.savedSel,
         Effect.removeFakeBg, Effect.restoreSel st.activeSel]
       else []) ++
      (if b then [Effect.clearSaved] else []) := by
  by_cases hbg : st.fakeBackground = true <;> by_cases hb : b = true <;>
    cases ha : st.activeSel <;> cases hs : st.savedSel <;>
      simp [closeActions, selRestore, selRemoveFakeBg, selClearSaved, hbg, hb, ha, hs]

theorem closeActions_trace_no_doc_mutation (b : Bool) (st : ToolState) :
    ((closeActions b st).2.all fun e => !e.mutatesDoc) = true := by
  rw [closeActions_trace]
  by_cases hbg : st.fakeBackground = true <;> by_cases hb : b = true <;>
    simp [hbg, hb, Effect.mutatesDoc]

theorem closeActions_trace_no_notifier (b : Bool) (st : ToolState) :
    ((closeActions b st).2.all fun e => !e.isNotifier) = true := by
  rw [closeActions_trace]
  by_cases hbg : st.fakeBackground = true <;> by_cases hb : b = true <;>
    simp [hbg, hb, Effect.isNotifier]

theorem get?_set_of_lt {α : Type} (l : List α) (i : Nat) (a : α) (h : i < l.length) :
    (l.set i a).get? i = some a := by
  cases hg : l.get? i with
  | none => exact absurd (List.get?_eq_none.mp hg) (by omega)
  | some x => rw [List.get?_set_eq, hg]; rfl

theorem docText_set_text (doc : List Inline) (i : Nat) (h t : Option String)
    (body : String) (hDoc : doc.get? i = some (.anchor h t body)) :
    docText (doc.set i (.text body)) = docText doc := by
  induction doc generalizing i with
  | nil => simp at hDoc
  | cons a rest ih =>
      cases i with
      | zero =>
          simp at hDoc
          subst hDoc
          simp [docText, Inline.visibleText]
      | succ n =>
          simp at hDoc
          simp [docText, Inline.visibleText] at ih ⊢
          exact ih n hDoc

/-! ### Claim C7 -/

/-- C7: closing the session while the fake background is active first
snapshots the currently active selection, then restores the original
snapshot and removes the fake background, then re-applies the snapshot —
so the selection active after the close equals the one active immediately
before it, even when it differs from the saved one. -/
theorem closeActions_preserves_active_selection (st : ToolState) (b : Bool) (cur : Sel)
    (hbg : st.fakeBackground = true) (hcur : st.activeSel = some cur) :
    (closeActions b st).1.activeSel = st.activeSel ∧
    (closeActions b st).1.fakeBackground = false ∧
    (closeActions b st).2 =
      [Effect.saveSel st.activeSel, Effect.restoreSel st.savedSel,
       Effect.removeFakeBg, Effect.restoreSel st.activeSel] ++
      (if b then [Effect.clearSaved] else []) := by
  refine ⟨?_, closeActions_fakeBackground b st (Or.inl hbg), ?_⟩
  · by_cases hb : b = true <;> cases hs : st.savedSel <;>
      simp [closeActions, selRestore, selRemoveFakeBg, selClearSaved, hbg, hb, hcur, hs]
  · rw [closeActions_trace, hbg]
    simp

/-- C7 witness: the preservation applied to a concrete editing state whose
active selection differs from the saved one. -/
theorem closeActions_preserves_active_selection_witness :
    (closeActions true { sampleOpenOnAnchor with activeSel := some ⟨0, 0, 4⟩ }).1.activeSel =
        { sampleOpenOnAnchor with activeSel := some ⟨0, 0, 4⟩ }.activeSel ∧
    (closeActions true { sampleOpenOnAnchor with activeSel := some ⟨0, 0, 4⟩ }).1.fakeBackground = false ∧
    (closeActions true { sampleOpenOnAnchor with activeSel := some ⟨0, 0, 4⟩ }).2 =
      [Effect.saveSel { sampleOpenOnAnchor with activeSel := some ⟨0, 0, 4⟩ }.activeSel,
       Effect.restoreSel { sampleOpenOnAnchor with activeSel := some ⟨0, 0, 4⟩ }.savedSel,
       Effect.removeFakeBg,
       Effect.restoreSel { sampleOpenOnAnchor with activeSel := some ⟨0, 0, 4⟩ }.activeSel] ++
      (if true then [Effect.clearSaved] else []) :=
  closeActions_preserves_active_selection _ true ⟨0, 0, 4⟩ (by decide) (by decide)

/-! ### Claim C9 -/

/-- C9: toggle-closing an open input (`surround` with a null range) and the
host-driven `clear()` transition the session to Closed without touching the
document: the document is identical before and after, and no
document-mutating command appears in the effect trace. -/
theorem toggle_close_and_clear_preserve_document (st : ToolState)
    (hOpen : st.inputOpened = true) :
    (surround false st).1.doc = st.doc ∧
    (surround false st).1.inputOpened = false ∧
    ((surround false st).2.all fun e => !e.mutatesDoc) = true ∧
    (clear st).1.doc = st.doc ∧
    (clear st).1.inputOpened = false ∧
    ((clear st).2.all fun e => !e.mutatesDoc) = true := by
  have h2 : surround false st = closeActions false st := by
    simp [surround, toggleActions, hOpen]
  rw [h2]
  unfold clear
  exact ⟨closeActions_doc _ _, closeActions_inputOpened _ _,
         closeActions_trace_no_doc_mutation _ _,
         closeActions_doc _ _, closeActions_inputOpened _ _,
         closeActions_trace_no_doc_mutation _ _⟩

/-- C9 witness: the frame property applied to a concrete open session. -/
theorem toggle_close_and_clear_preserve_document_witness :
    (surround false sampleOpenOnText).1.doc = sampleOpenOnText.doc ∧
    (surround false sampleOpenOnText).1.inputOpened = false ∧
    ((surround false sampleOpenOnText).2.all fun e => !e.mutatesDoc) = true ∧
    (clear sampleOpenOnText).1.doc = sampleOpenOnText.doc ∧
    (clear sampleOpenOnText).1.inputOpened = false ∧
    ((clear sampleOpenOnText).2.all fun e => !e.mutatesDoc) = true :=
  toggle_close_and_clear_preserve_document sampleOpenOnText (by decide)

/-! ### Claim C10 -/

/-- C10: when `checkState` finds an enclosing annotation it pre-fills the
link and title inputs from the `href`/`title` attributes through
`attrToValue`: the literal string `"null"` maps to the empty input value,
indistinguishable from an absent attribute, and every other value — the
empty string included — is copied verbatim. -/
theorem checkState_prefills_inputs (st : ToolState) (sel : Sel)
    (h t : Option String) (body : String)
    (hSel : st.activeSel = some sel)
    (hDoc : st.doc.get? sel.idx = some (.anchor h t body)) :
    (checkState st).1.linkValue = attrToValue h ∧
    (checkState st).1.titleValue = attrToValue t ∧
    (checkState st).1.inputOpened = true ∧
    (checkState st).2.2 = true ∧
    attrToValue (some "null") = "" ∧
    attrToValue none = "" ∧
    ∀ v : String, v ≠ "null" → attrToValue (some v) = v := by
  have hDoc2 : st.doc[sel.idx]? = some (Inline.anchor h t body) := by
    simpa using hDoc
  have hfp : findParentAnchor st = some (sel.idx, h, t, body) := by
    simp [findParentAnchor, hSel, hDoc2]
  refine ⟨?_, ?_, ?_, ?_, rfl, rfl, ?_⟩
  · simp [checkState, hfp, openActions, selSave, hSel]
  · simp [checkState, hfp, openActions, selSave, hSel]
  · simp [checkState, hfp, openActions, selSave, hSel]
  · simp [checkState, hfp, openActions, selSave, hSel]
  · intro v hv
    simp [attrToValue, hv]

/-- C10 witness: pre-filling applied to a concrete state whose anchor
carries `href="null"` (mapped to the empty value) and no title attribute. -/
theorem checkState_prefills_inputs_witness :
    (checkState { sampleClosedOnAnchor with
        doc := [Inline.anchor (some "null") none "text"] }).1.linkValue =
      attrToValue (some "null") ∧
    (checkState { sampleClosedOnAnchor with
        doc := [Inline.anchor (some "null") none "text"] }).1.titleValue =
      attrToValue none ∧
    (checkState { sampleClosedOnAnchor with
        doc := [Inline.anchor (some "null") none "text"] }).1.inputOpened = true ∧
    (checkState { sampleClosedOnAnchor with
        doc := [Inline.anchor (some "null") none "text"] }).2.2 = true ∧
    attrToValue (some "null") = "" ∧
    attrToValue none = "" ∧
    (∀ v : String, v ≠ "null" → attrToValue (some v) = v) :=
  checkState_prefills_inputs _ ⟨0, 1, 2⟩ (some "null") none "text" (by decide) (by decide)

/-! ### Claim C4 -/

/-- C4 counterexample: a link consisting of a single space is non-empty and
contains a whitespace character, yet `enterPressed` does not take the
validation-failure path — it trims to empty, so the handler restores the
selection, invokes unlink (a document-mutating command) and closes the
input, with no notifier call at all. -/
theorem commit_blank_link_not_validation_failure :
    (enterPressed { sampleOpenOnAnchor with linkValue := " " }).1.inputOpened = false ∧
    Effect.execUnlink ∈ (enterPressed { sampleOpenOnAnchor with linkValue := " " }).2 ∧
    ((enterPressed { sampleOpenOnAnchor with linkValue := " " }).2.all
      fun e => !e.isNotifier) = true := by
  decide

/-- C4 (amended): for every commit whose link text is non-empty *after
trimming* and contains a whitespace character, validation fails and the
handler returns immediately: the whole state (input open, link and title
values) is unchanged and the trace is exactly one notifier warning plus the
log entry — no document mutation. -/
theorem commit_whitespace_link_rejected (st : ToolState)
    (hNE : (jsTrim st.linkValue.data).isEmpty = false)
    (hWs : st.linkValue.data.any jsWs = true) :
    enterPressed st =
      (st, [Effect.notifierShow "Pasted link is not valid." "error",
            Effect.logWarn st.linkValue]) := by
  have hv : validateURL st.linkValue = false := by
    rw [validateURL, List.all_eq_false]
    obtain ⟨c, hc, hwc⟩ := List.any_eq_true.mp hWs
    exact ⟨c, hc, by simp [hwc]⟩
  unfold enterPressed
  simp [hNE, hv]

/-- C4 witness: the rejection applied at the concrete link text `"a b"`. -/
theorem commit_whitespace_link_rejected_witness :
    enterPressed { sampleOpenOnAnchor with linkValue := "a b" } =
      ({ sampleOpenOnAnchor with linkValue := "a b" },
       [Effect.notifierShow "Pasted link is not valid." "error",
        Effect.logWarn "a b"]) :=
  commit_whitespace_link_rejected _ (by decide) (by decide)

/-! ### Claim C6 -/

theorem enterPressed_empty (st : ToolState)
    (hEmpty : (jsTrim st.linkValue.data).isEmpty = true) :
    enterPressed st =
      ((closeActions true (execUnlinkSt (selRestore st).1)).1,
       [Effect.restoreSel st.savedSel, Effect.execUnlink] ++
         (closeActions true (execUnlinkSt (selRestore st).1)).2) := by
  unfold enterPressed
  rw [if_pos hEmpty]
  rfl

/-- C6: a commit with empty link text restores the saved selection, invokes
unlink — removing the enclosing annotation while its visible text remains —
makes no notifier call, and transitions the session to Closed. -/
theorem commit_empty_link_removes_annotation (st : ToolState) (sel : Sel)
    (h t : Option String) (body : String)
    (hEmpty : (jsTrim st.linkValue.data).isEmpty = true)
    (hSaved : st.savedSel = some sel)
    (hDoc : st.doc.get? sel.idx = some (.anchor h t body)) :
    (enterPressed st).1.doc = st.doc.set sel.idx (Inline.text body) ∧
    docText (enterPressed st).1.doc = docText st.doc ∧
    (enterPressed st).1.inputOpened = false ∧
    ((enterPressed st).2.all fun e => !e.isNotifier) = true ∧
    (enterPressed st).2.take 2 = [Effect.restoreSel (some sel), Effect.execUnlink] := by
  have hDoc2 : st.doc[sel.idx]? = some (Inline.anchor h t body) := by simpa using hDoc
  have hres : (selRestore st).1 = { st with activeSel := some sel } := by
    simp [selRestore, hSaved]
  have hun : execUnlinkSt { st with activeSel := some sel } =
      { st with activeSel := some sel, doc := st.doc.set sel.idx (Inline.text body) } := by
    simp [execUnlinkSt, hDoc2]
  have key := enterPressed_empty st hEmpty
  refine ⟨?_, ?_, ?_, ?_, ?_⟩
  · simp only [key, hres, hun]
    rw [closeActions_doc]
  · simp only [key, hres, hun]
    rw [closeActions_doc]
    exact docText_set_text _ _ _ _ _ hDoc
  · simp only [key, hres, hun]
    exact closeActions_inputOpened _ _
  · simp only [key, hres, hun]
    rw [List.all_append, closeActions_trace_no_notifier]
    rfl
  · simp only [key, hSaved]
    rfl

/-- C6 witness: clearing the link on a selection saved inside
`<a href="http://x.com">text</a>` removes the annotation and keeps `text`. -/
theorem commit_empty_link_removes_annotation_witness :
    (enterPressed sampleOpenOnAnchor).1.doc =
      sampleOpenOnAnchor.doc.set 0 (Inline.text "text") ∧
    docText (enterPressed sampleOpenOnAnchor).1.doc = docText sampleOpenOnAnchor.doc ∧
    (enterPressed sampleOpenOnAnchor).1.inputOpened = false ∧
    ((enterPressed sampleOpenOnAnchor).2.all fun e => !e.isNotifier) = true ∧
    (enterPressed sampleOpenOnAnchor).2.take 2 =
      [Effect.restoreSel (some ⟨0, 1, 2⟩), Effect.execUnlink] :=
  commit_empty_link_removes_annotation sampleOpenOnAnchor ⟨0, 1, 2⟩
    (some "http://x.com") none "text" (by decide) (by decide) (by decide)

/-! ### Claim C1 -/

/-- C1 counterexample: from the Closed state, activating the tool over a
non-empty selection inside `<a href="http://x.com">text</a>` does not open
an editing session — the annotation is removed (unlink path), the input is
not opened and nothing is pre-filled, refuting the claimed
`Open(editing)`-with-annotation-present outcome at this concrete input. -/
theorem activation_on_anchor_counterexample :
    (surround true sampleClosedOnAnchor).1.inputOpened = false ∧
    (surround true sampleClosedOnAnchor).1.doc = [Inline.text "text"] ∧
    (surround true sampleClosedOnAnchor).1.linkValue = "" ∧
    (surround true sampleClosedOnAnchor).1.titleValue = "" := by
  decide

/-- C1 (amended): from the Closed state, an activation intent over a
selection inside an existing annotation sets the fake background and saves
the selection, then expands to the annotation, unlinks it (visible text
preserved), closes the input actions, re-checks the state (no anchor any
more) and closes the toolbar: the session ends Closed, with empty input
values, no fake background and the annotation removed. -/
theorem surround_closed_on_anchor_unlinks (st : ToolState) (sel : Sel)
    (h t : Option String) (body : String)
    (hOpen : st.inputOpened = false)
    (hSel : st.activeSel = some sel)
    (hDoc : st.doc.get? sel.idx = some (.anchor h t body)) :
    (surround true st).1.doc = st.doc.set sel.idx (Inline.text body) ∧
    docText (surround true st).1.doc = docText st.doc ∧
    (surround true st).1.inputOpened = false ∧
    (surround true st).1.linkValue = "" ∧
    (surround true st).1.titleValue = "" ∧
    (surround true st).1.fakeBackground = false ∧
    findParentAnchor (surround true st).1 = none ∧
    Effect.execUnlink ∈ (surround true st).2 ∧
    Effect.toolbarClose ∈ (surround true st).2 := by
  obtain ⟨hlt, -⟩ := List.get?_eq_some.mp hDoc
  have hDoc2 : st.doc[sel.idx]? = some (Inline.anchor h t body) := by simpa using hDoc
  have hset : (st.doc.set sel.idx (Inline.text body))[sel.idx]? =
      some (Inline.text body) := by
    simpa using get?_set_of_lt _ _ _ hlt
  refine ⟨?_, ?_, ?_, ?_, ?_, ?_, ?_, ?_, ?_⟩ <;>
    simp [surround, toggleActions, openActions, closeActions, checkState, findParentAnchor,
          selSetFakeBg, selSave, selRestore, selRemoveFakeBg, selClearSaved, selExpandTo,
          unlink, execUnlink, execUnlinkSt, hOpen, hSel, hDoc2, hset]
  exact docText_set_text _ _ _ _ _ hDoc

/-! ### Helper lemmas for the commit flow -/

theorem execCreateLinkSt_fakeBackground (l : String) (st : ToolState) :
    (execCreateLinkSt l st).fakeBackground = st.fakeBackground := by
  unfold execCreateLinkSt
  cases ha : st.activeSel with
  | none => rfl
  | some sel =>
      dsimp only
      cases hg : st.doc.get? sel.idx with
      | none => rfl
      | some n =>
          cases n with
          | anchor h t b => rfl
          | text s =>
              dsimp only
              split
              · rfl
              · rfl

theorem setParentAnchorTitleSt_fakeBackground (ti : String) (st : ToolState) :
    (setParentAnchorTitleSt ti st).fakeBackground = st.fakeBackground := by
  unfold setParentAnchorTitleSt
  cases ha : st.activeSel with
  | none => rfl
  | some sel =>
      dsimp only
      cases hg : st.doc.get? sel.idx with
      | none => rfl
      | some n => cases n with
          | anchor h t b => rfl
          | text s => rfl

theorem selExpandTo_fakeBackground (i : Nat) (st : ToolState) :
    (selExpandTo i st).1.fakeBackground = st.fakeBackground := by
  unfold selExpandTo
  cases hg : st.doc.get? i with
  | none => rfl
  | some n => rfl

theorem insertLink_fakeBackground (l ti : String) (st : ToolState) :
    (insertLink l ti st).1.fakeBackground = st.fakeBackground := by
  unfold insertLink
  cases hfp : findParentAnchor st with
  | none =>
      simp only [execCreateLink, setParentAnchorTitle]
      rw [setParentAnchorTitleSt_fakeBackground, execCreateLinkSt_fakeBackground]
  | some q =>
      simp only [execCreateLink, setParentAnchorTitle]
      rw [setParentAnchorTitleSt_fakeBackground, execCreateLinkSt_fakeBackground,
          selExpandTo_fakeBackground]

theorem selCollapseToEnd_fakeBackground (st : ToolState) :
    (selCollapseToEnd st).1.fakeBackground = st.fakeBackground := by
  unfold selCollapseToEnd
  cases ha : st.activeSel with
  | none => rfl
  | some sel => rfl

theorem insertLink_trace_shape (l ti : String) (st : ToolState) :
    ∃ pre, (insertLink l ti st).2 =
        pre ++ [Effect.execCreateLink l, Effect.setAnchorTitle ti] ∧
      (pre = [] ∨ ∃ i, pre = [Effect.expandTo i]) := by
  unfold insertLink
  cases hfp : findParentAnchor st with
  | none => exact ⟨[], rfl, Or.inl rfl⟩
  | some q => exact ⟨[Effect.expandTo q.1], rfl, Or.inr ⟨q.1, rfl⟩⟩

theorem closeActions_savedSel_cleared (st : ToolState) :
    (closeActions true st).1.savedSel = none := by
  by_cases hbg : st.fakeBackground = true <;>
    cases ha : st.activeSel <;> cases hs : st.savedSel <;>
      simp [closeActions, selRestore, selRemoveFakeBg, selClearSaved, hbg, ha, hs]

/-! ### Claim C5 -/

theorem enterPressed_valid (st : ToolState)
    (hNE : (jsTrim st.linkValue.data).isEmpty = false)
    (hValid : validateURL st.linkValue = true) :
    enterPressed st =
      ((clear (selCollapseToEnd (insertLink (prepareLink st.linkValue) st.titleValue
          { (selRestore st).1 with fakeBackground := false }).1).1).1,
       [Effect.restoreSel st.savedSel, Effect.removeFakeBg] ++
         (insertLink (prepareLink st.linkValue) st.titleValue
           { (selRestore st).1 with fakeBackground := false }).2 ++
         [Effect.collapseToEnd] ++ [Effect.inlineToolbarClose] ++
         (clear (selCollapseToEnd (insertLink (prepareLink st.linkValue) st.titleValue
           { (selRestore st).1 with fakeBackground := false }).1).1).2) := by
  unfold enterPressed
  rw [if_neg (by simp [hNE]), if_neg (by simp [hValid])]
  rfl

/-- C5: a commit with link text that is non-empty after trimming and passes
validation performs, in order: restore of the saved selection, removal of
the fake background, insertion of the normalized link with the title
(optionally preceded by expanding to an enclosing anchor), collapse of the
selection to the end, closing of the host inline toolbar, and the session
ends Closed with the input state reset. -/
theorem commit_valid_link_flow (st : ToolState)
    (hNE : (jsTrim st.linkValue.data).isEmpty = false)
    (hValid : validateURL st.linkValue = true) :
    (∃ pre,
      (enterPressed st).2 =
        [Effect.restoreSel st.savedSel, Effect.removeFakeBg] ++ pre ++
        [Effect.execCreateLink (prepareLink st.linkValue),
         Effect.setAnchorTitle st.titleValue,
         Effect.collapseToEnd, Effect.inlineToolbarClose, Effect.clearSaved] ∧
      (pre = [] ∨ ∃ i, pre = [Effect.expandTo i])) ∧
    (enterPressed st).1.inputOpened = false ∧
    (enterPressed st).1.linkValue = "" ∧
    (enterPressed st).1.titleValue = "" ∧
    (enterPressed st).1.fakeBackground = false ∧
    (enterPressed st).1.savedSel = none := by
  have key := enterPressed_valid st hNE hValid
  have hfb : (selCollapseToEnd (insertLink (prepareLink st.linkValue) st.titleValue
      { (selRestore st).1 with fakeBackground := false }).1).1.fakeBackground = false := by
    rw [selCollapseToEnd_fakeBackground, insertLink_fakeBackground]
  have hcleartr : (clear (selCollapseToEnd (insertLink (prepareLink st.linkValue) st.titleValue
      { (selRestore st).1 with fakeBackground := false }).1).1).2 = [Effect.clearSaved] := by
    unfold clear
    rw [closeActions_trace, hfb]
    simp
  obtain ⟨pre, hpre, hcases⟩ :=
    insertLink_trace_shape (prepareLink st.linkValue) st.titleValue
      { (selRestore st).1 with fakeBackground := false }
  refine ⟨⟨pre, ?_, hcases⟩, ?_, ?_, ?_, ?_, ?_⟩
  · simp only [key, hpre, hcleartr]
    simp [List.append_assoc]
  · simp only [key]
    exact closeActions_inputOpened _ _
  · simp only [key]
    exact closeActions_linkValue _ _
  · simp only [key]
    exact closeActions_titleValue _ _
  · simp only [key]
    exact closeActions_fakeBackground _ _ (Or.inr hfb)
  · simp only [key]
    exact closeActions_savedSel_cleared _

/-- C5 witness: the full commit flow at a concrete open session over plain
text with link `"vc.ru"`. -/
theorem commit_valid_link_flow_witness :
    (∃ pre,
      (enterPressed { sampleOpenOnText with linkValue := "vc.ru" }).2 =
        [Effect.restoreSel { sampleOpenOnText with linkValue := "vc.ru" }.savedSel,
         Effect.removeFakeBg] ++ pre ++
        [Effect.execCreateLink (prepareLink "vc.ru"),
         Effect.setAnchorTitle "",
         Effect.collapseToEnd, Effect.inlineToolbarClose, Effect.clearSaved] ∧
      (pre = [] ∨ ∃ i, pre = [Effect.expandTo i])) ∧
    (enterPressed { sampleOpenOnText with linkValue := "vc.ru" }).1.inputOpened = false ∧
    (enterPressed { sampleOpenOnText with linkValue := "vc.ru" }).1.linkValue = "" ∧
    (enterPressed { sampleOpenOnText with linkValue := "vc.ru" }).1.titleValue = "" ∧
    (enterPressed { sampleOpenOnText with linkValue := "vc.ru" }).1.fakeBackground = false ∧
    (enterPressed { sampleOpenOnText with linkValue := "vc.ru" }).1.savedSel = none :=
  commit_valid_link_flow { sampleOpenOnText with linkValue := "vc.ru" }
    (by decide) (by decide)

theorem getElem?_middle {α : Type} (A P B : List α) (x : α) :
    (A ++ (P ++ (x :: B)))[A.length + P.length]? = some x := by
  rw [List.getElem?_append_right (by omega : A.length ≤ A.length + P.length)]
  rw [Nat.add_sub_cancel_left]
  rw [List.getElem?_append_right (Nat.le_refl P.length)]
  simp

/-! ### Claim C8 -/

/-- C8: `insertLink` first expands a selection lying inside an existing
annotation to the annotation's full extent (so the whole link is edited),
and immediately after the insertion the enclosing annotation found by
`findParentAnchor` carries `href` equal to the inserted link and `title`
equal to the given title — the empty title included; on a plain-text
selection the freshly created annotation spans exactly the selected text. -/
theorem insertLink_round_trip :
    (∀ (st : ToolState) (sel : Sel) (h t : Option String) (body link title : String),
      st.activeSel = some sel →
      st.doc.get? sel.idx = some (.anchor h t body) →
      (insertLink link title st).2 =
        [Effect.expandTo sel.idx, Effect.execCreateLink link,
         Effect.setAnchorTitle title] ∧
      (insertLink link title st).1.doc =
        st.doc.set sel.idx (.anchor (some link) (some title) body) ∧
      findParentAnchor (insertLink link title st).1 =
        some (sel.idx, some link, some title, body)) ∧
    (∀ (st : ToolState) (sel : Sel) (s link title : String),
      st.activeSel = some sel →
      st.doc.get? sel.idx = some (.text s) →
      sel.startOff < sel.endOff →
      sel.endOff ≤ s.data.length →
      ∃ i, findParentAnchor (insertLink link title st).1 =
        some (i, some link, some title, ⟨(s.data.take sel.endOff).drop sel.startOff⟩)) := by
  constructor
  · intro st sel h t body link title hSel hDoc
    obtain ⟨hlt, -⟩ := List.get?_eq_some.mp hDoc
    have hDoc2 : st.doc[sel.idx]? = some (Inline.anchor h t body) := by simpa using hDoc
    have hset1 : (st.doc.set sel.idx (Inline.anchor (some link) t body))[sel.idx]? =
        some (Inline.anchor (some link) t body) := by
      simpa using get?_set_of_lt _ _ _ hlt
    have hset3 : (st.doc.set sel.idx (Inline.anchor (some link) (some title) body))[sel.idx]? =
        some (Inline.anchor (some link) (some title) body) := by
      simpa using get?_set_of_lt _ _ _ hlt
    have hfp : findParentAnchor st = some (sel.idx, h, t, body) := by
      simp [findParentAnchor, hSel, hDoc2]
    have hstate : (insertLink link title st).1 =
        { st with activeSel := some ⟨sel.idx, 0, body.length⟩,
                  doc := st.doc.set sel.idx (Inline.anchor (some link) (some title) body) } := by
      simp [insertLink, hfp, selExpandTo, execCreateLink, execCreateLinkSt,
            setParentAnchorTitle, setParentAnchorTitleSt, Inline.visibleText,
            hDoc2, hset1, List.set_set]
    refine ⟨?_, ?_, ?_⟩
    · simp [insertLink, hfp, selExpandTo, execCreateLink, setParentAnchorTitle]
    · rw [hstate]
    · rw [hstate]
      simp [findParentAnchor, hset3]
  · intro st sel s link title hSel hDoc hab hbe
    obtain ⟨hlt, -⟩ := List.get?_eq_some.mp hDoc
    have hbe2 : sel.endOff ≤ s.length := hbe
    have hDoc2 : st.doc[sel.idx]? = some (Inline.text s) := by simpa using hDoc
    have hfp : findParentAnchor st = none := by
      simp [findParentAnchor, hSel, hDoc2]
    have hAlen : (st.doc.take sel.idx).length = sel.idx := by
      simp [List.length_take]
      omega
    have hins : insertLink link title st =
        (setParentAnchorTitleSt title (execCreateLinkSt link st),
         [Effect.execCreateLink link, Effect.setAnchorTitle title]) := by
      unfold insertLink
      rw [hfp]
      rfl
    have hmain : ∃ i, (execCreateLinkSt link st).activeSel =
          some ⟨i, 0, ((s.data.take sel.endOff).drop sel.startOff).length⟩ ∧
        (execCreateLinkSt link st).doc[i]? =
          some (Inline.anchor (some link) none ⟨(s.data.take sel.endOff).drop sel.startOff⟩) ∧
        i < (execCreateLinkSt link st).doc.length := by
      refine ⟨sel.idx + (if (s.data.take sel.startOff).isEmpty then 0 else 1), ?_, ?_, ?_⟩
      · by_cases hpre : (s.data.take sel.startOff).isEmpty = true <;>
          simp [execCreateLinkSt, hSel, hDoc2, hab, hbe2, hpre]
      · by_cases hpre : (s.data.take sel.startOff).isEmpty = true
        · have hmid := getElem?_middle (st.doc.take sel.idx) ([] : List Inline)
            ((if (s.data.drop sel.endOff).isEmpty = true then ([] : List Inline)
              else [Inline.text ⟨s.data.drop sel.endOff⟩]) ++ st.doc.drop (sel.idx + 1))
            (Inline.anchor (some link) none ⟨(s.data.take sel.endOff).drop sel.startOff⟩)
          simp only [hAlen, Nat.add_zero, List.length_nil, List.nil_append] at hmid
          simp [execCreateLinkSt, hSel, hDoc2, hab, hbe2, hpre, List.append_assoc]
          convert hmid using 3
          simp [List.isEmpty_iff, List.drop_eq_nil_iff_le]
        · have hmid := getElem?_middle (st.doc.take sel.idx)
            [Inline.text ⟨s.data.take sel.startOff⟩]
            ((if (s.data.drop sel.endOff).isEmpty = true then ([] : List Inline)
              else [Inline.text ⟨s.data.drop sel.endOff⟩]) ++ st.doc.drop (sel.idx + 1))
            (Inline.anchor (some link) none ⟨(s.data.take sel.endOff).drop sel.startOff⟩)
          simp only [hAlen, List.length_singleton, List.singleton_append,
                     List.cons_append, List.nil_append] at hmid
          simp [execCreateLinkSt, hSel, hDoc2, hab, hbe2, hpre, List.append_assoc]
          convert hmid using 3
          simp [List.isEmpty_iff, List.drop_eq_nil_iff_le]
      · by_cases hpre : (s.data.take sel.startOff).isEmpty = true <;>
          by_cases hpost : (s.data.drop sel.endOff).isEmpty = true <;>
          simp [execCreateLinkSt, hSel, hDoc2, hab, hbe2, hpre, hpost,
                List.length_append, hAlen] <;>
          try omega
    obtain ⟨i, hact, hdocI, hilt⟩ := hmain
    have hset : ((execCreateLinkSt link st).doc.set i
        (Inline.anchor (some link) (some title)
          ⟨(s.data.take sel.endOff).drop sel.startOff⟩))[i]? =
        some (Inline.anchor (some link) (some title)
          ⟨(s.data.take sel.endOff).drop sel.startOff⟩) := by
      simpa using get?_set_of_lt _ _ _ hilt
    refine ⟨i, ?_⟩
    rw [hins]
    simp [findParentAnchor, setParentAnchorTitleSt, hact, hdocI, hset]

/-- C8 witness: editing the existing annotation of the sample state with a
new link and title. -/
theorem insertLink_round_trip_witness :
    (insertLink "http://vc.ru" "T" sampleClosedOnAnchor).2 =
      [Effect.expandTo 0, Effect.execCreateLink "http://vc.ru",
       Effect.setAnchorTitle "T"] ∧
    (insertLink "http://vc.ru" "T" sampleClosedOnAnchor).1.doc =
      sampleClosedOnAnchor.doc.set 0
        (Inline.anchor (some "http://vc.ru") (some "T") "text") ∧
    findParentAnchor (insertLink "http://vc.ru" "T" sampleClosedOnAnchor).1 =
      some (0, some "http://vc.ru", some "T", "text") :=
  insertLink_round_trip.1 sampleClosedOnAnchor ⟨0, 1, 2⟩ (some "http://x.com") none
    "text" "http://vc.ru" "T" (by decide) (by decide)

/-- C1 witness for the amended claim: the unlink outcome at the sample
closed-on-anchor state. -/
theorem surround_closed_on_anchor_unlinks_witness :
    (surround true sampleClosedOnAnchor).1.doc =
      sampleClosedOnAnchor.doc.set 0 (Inline.text "text") ∧
    docText (surround true sampleClosedOnAnchor).1.doc = docText sampleClosedOnAnchor.doc ∧
    (surround true sampleClosedOnAnchor).1.inputOpened = false ∧
    (surround true sampleClosedOnAnchor).1.linkValue = "" ∧
    (surround true sampleClosedOnAnchor).1.titleValue = "" ∧
    (surround true sampleClosedOnAnchor).1.fakeBackground = false ∧
    findParentAnchor (surround true sampleClosedOnAnchor).1 = none ∧
    Effect.execUnlink ∈ (surround true sampleClosedOnAnchor).2 ∧
    Effect.toolbarClose ∈ (surround true sampleClosedOnAnchor).2 :=
  surround_closed_on_anchor_unlinks sampleClosedOnAnchor ⟨0, 1, 2⟩
    (some "http://x.com") none "text" (by decide) (by decide) (by decide)

end LinkTool
